import Mathlib

/-!
Verification development for baseplate's configuration parsing module
(src/baseplate/config.py).  The module turns a flat string-keyed,
string-valued dictionary into a structured, typed configuration object,
validated against a declarative spec.

The embedding below translates the source into Lean: Python coercers
become functions returning an Except value, the exception machinery
becomes an explicit error type, and the Parser class hierarchy becomes
an inductive spec-node type with a recursive parse function.  Models of
the CPython builtins used by the source (int(), str.split(),
str.rstrip, str.partition, datetime.timedelta, re for the pattern
shapes generated by DictOf) are given alongside, restricted where noted
to the ASCII inputs this module works with.
-/

deriving instance DecidableEq for Except

namespace Config

/-- Model of the Python exception values that can flow out of this
module.  Only Exception subclasses are modelled (raisables that are
BaseException-only, such as SystemExit, are not error failures and do
not occur here).  The configurationError constructor models the
module's ConfigurationError class, which stores a key and a wrapped
cause and formats itself as the key, a colon and the cause. -/
inductive Exc : Type where
  | valueError (msg : String)
  | keyError (msg : String)
  | assertionError (msg : String)
  | otherError (kind : String) (msg : String)
  | configurationError (key : String) (cause : Exc)
deriving DecidableEq, Repr

/-- Model of str(exc): ValueError and AssertionError show their
message, KeyError shows the repr of its argument, and
ConfigurationError was initialised with the formatted string built
from the key and str of the cause (config.py line 106). -/
def Exc.str : Exc → String
  | .valueError m => m
  | .keyError m => "\x27" ++ m ++ "\x27"
  | .assertionError m => m
  | .otherError _ m => m
  | .configurationError key cause => key ++ ": " ++ cause.str

/-- True when the exception is a ValueError; models an
except-ValueError clause. -/
def Exc.isValueError : Exc → Bool
  | .valueError _ => true
  | _ => false

/-- Model of Python ASCII whitespace, as recognised by str.split()
and int() (the unicode whitespace code points are not needed for the
inputs of this module). -/
def pyIsSpace (c : Char) : Bool :=
  c = ' ' || c = '\t' || c = '\n' || c = '\r' || c = Char.ofNat 11 || c = Char.ofNat 12

/-- Accumulator loop for str.split() with no arguments: whitespace
runs separate tokens and leading and trailing whitespace is dropped. -/
def pySplitWsAux : List Char → List Char → List String
  | acc, [] => if acc.isEmpty then [] else [String.mk acc.reverse]
  | acc, c :: cs =>
      if pyIsSpace c then
        if acc.isEmpty then pySplitWsAux [] cs
        else String.mk acc.reverse :: pySplitWsAux [] cs
      else pySplitWsAux (c :: acc) cs

/-- Model of Python str.split() with no arguments. -/
def pySplitWs (s : String) : List String :=
  pySplitWsAux [] s.data

/-- Model of Python text.rstrip(chars) for a single stripped character:
removes every trailing occurrence, not just one. -/
def pyRstrip (strip : Char) (s : String) : String :=
  String.mk ((s.data.reverse.dropWhile (· = strip)).reverse)

/-- Model of Python text.partition(sep) for a one-character separator:
splits at the first occurrence, returning the part before, the
separator itself, and the part after; when the separator is absent the
result is the whole string followed by two empty strings. -/
def pyPartitionChar (sep : Char) (s : String) : String × String × String :=
  match s.data.dropWhile (· ≠ sep) with
  | [] => (s, "", "")
  | _ :: tail => (String.mk (s.data.takeWhile (· ≠ sep)), String.mk [sep], String.mk tail)

/-- Naive model of Python repr for the strings appearing in error
messages here (a quote, the text, a quote; escaping inside the text is
not needed for the inputs of this development). -/
def pyRepr (s : String) : String :=
  "\x27" ++ s ++ "\x27"

/-- Digit-run parser for the CPython base-10 integer grammar after the
optional sign: a digit followed by further digits, where a single
underscore may stand between two digits. -/
def pyDigitsGo (acc : Nat) : List Char → Option Nat
  | [] => some acc
  | '_' :: c :: cs =>
      if c.isDigit then pyDigitsGo (acc * 10 + (c.toNat - 48)) cs else none
  | ['_'] => none
  | c :: cs =>
      if c.isDigit then pyDigitsGo (acc * 10 + (c.toNat - 48)) cs else none

/-- Digit-run parser requiring at least one leading digit. -/
def pyDigits : List Char → Option Nat
  | [] => none
  | c :: cs => if c.isDigit then pyDigitsGo (c.toNat - 48) cs else none

/-- The ValueError message produced by a failing int(text) call. -/
def pyIntErr (text : String) : Exc :=
  .valueError ("invalid literal for int() with base 10: " ++ pyRepr text)

/-- Model of CPython int(text) in base 10 for ASCII input: surrounding
whitespace is ignored, an optional single sign precedes the digits,
underscores may separate digits, anything else is a ValueError.
(Unicode decimal digits, also accepted by CPython, are outside the
model; no input of this development contains them.) -/
def pyInt (text : String) : Except Exc Int :=
  let core := ((text.data.dropWhile pyIsSpace).reverse.dropWhile pyIsSpace).reverse
  match core with
  | '+' :: rest =>
      match pyDigits rest with
      | some n => .ok (n : Int)
      | none => .error (pyIntErr text)
  | '-' :: rest =>
      match pyDigits rest with
      | some n => .ok (-(n : Int))
      | none => .error (pyIntErr text)
  | rest =>
      match pyDigits rest with
      | some n => .ok (n : Int)
      | none => .error (pyIntErr text)

/-- Model of datetime.timedelta: the normalised value, held as a whole
number of microseconds (CPython stores days, seconds and microseconds;
one integer of microseconds carries the same information). -/
structure Timedelta : Type where
  us : Int
deriving DecidableEq, Repr

/-- The span as an exact number of seconds: the mathematical value of
the stored microseconds.  (Python's total_seconds method returns a
float approximation of this; the exact value is what the statements
below compare against.) -/
def Timedelta.totalSeconds (t : Timedelta) : Rat :=
  (t.us : Rat) / 1000000

/-- A finite IEEE-754 binary64 value, held exactly as an integer
significand and a power-of-two exponent (the value is m times 2^e).
The representation is not kept normalised; only the value matters. -/
structure Fp : Type where
  m : Int
  e : Int
deriving DecidableEq, Repr

/-- Halving loop for the binary digit count, structurally recursive on
a fuel argument. -/
def bitLenGo : Nat → Nat → Nat
  | 0, _ => 0
  | fuel + 1, n => if n = 0 then 0 else bitLenGo fuel (n / 2) + 1

/-- Number of binary digits of a natural number (the fuel n suffices
since a number never has more digits than its own value). -/
def bitLen (n : Nat) : Nat :=
  bitLenGo n n

/-- Round the dyadic value m times 2^e to the nearest integer, ties to
even — the IEEE rounding direction, in exact integer arithmetic. -/
def rheDyadic (m : Int) (e : Int) : Int :=
  if 0 ≤ e then m * 2 ^ e.toNat
  else
    let d : Int := 2 ^ (-e).toNat
    let f := Int.fdiv m d
    let rem := m - f * d
    if 2 * rem < d then f
    else if d < 2 * rem then f + 1
    else if f % 2 = 0 then f else f + 1

/-- Round an exact dyadic value to 53 significant bits, ties to even:
one IEEE binary64 rounding step (normal range; the values arising in
this module never reach the subnormal range). -/
def round53 (m : Int) (e : Int) : Fp :=
  if m = 0 then ⟨0, 0⟩
  else
    let b := bitLen m.natAbs
    if b ≤ 53 then ⟨m, e⟩
    else ⟨rheDyadic m (-(b - 53 : Nat)), e + (b - 53 : Nat)⟩

/-- The IEEE binary64 value nearest to 0.001: the float literal the
source stores as the millisecond scale (config.py line 250).  Its
distance from one one-thousandth is at most half an ulp, checked by
an example below. -/
def float001 : Fp :=
  ⟨4611686018427388, -62⟩

/-- Model of CPython's int-to-float conversion: round the integer to
binary64 and raise OverflowError when the rounded magnitude reaches
2^1024 (infinity). -/
def floatOfInt (n : Int) : Except Exc Fp :=
  let f := round53 n 0
  if 1025 ≤ (bitLen f.m.natAbs : Int) + f.e then
    .error (.otherError "OverflowError" "int too large to convert to float")
  else .ok f

/-- IEEE binary64 multiplication on exact encodings: the exact product,
rounded to 53 bits.  (Overflow cannot occur at the one call site,
where one factor is below one.) -/
def floatMul (a b : Fp) : Fp :=
  round53 (a.m * b.m) (a.e + b.e)

/-- Model of the Python expression count * scale with an int count and
a float scale: the count is converted to a float (possibly raising
OverflowError) and the product rounded once. -/
def pyIntTimesFloat (n : Int) (f : Fp) : Except Exc Fp :=
  (floatOfInt n).map (fun g => floatMul g f)

/-- Microsecond total of datetime.timedelta(seconds=f) for a float f,
following the CPython accumulation: modf splits f into its integer
part (truncated toward zero) and fraction, the fraction is multiplied
by 10^6 in double arithmetic (one rounding), and the combined value is
rounded to a whole number of microseconds with ties to even.  All
steps are exact integer arithmetic on the dyadic encodings. -/
def tdUsOfFloat (f : Fp) : Int :=
  if 0 ≤ f.e then f.m * 2 ^ f.e.toNat * 1000000
  else
    let d : Int := 2 ^ (-f.e).toNat
    let ip := Int.tdiv f.m d
    let fm := f.m - ip * d
    let L := round53 (fm * 1000000) f.e
    if 0 ≤ L.e then ip * 1000000 + L.m * 2 ^ L.e.toNat
    else rheDyadic (ip * 1000000 * 2 ^ (-L.e).toNat + L.m) L.e

/-- Normalisation and range check of datetime.timedelta on a whole
number of microseconds: the normalised days component must have
magnitude at most 999999999, else OverflowError. -/
def timedeltaOfUs (us : Int) : Except Exc Timedelta :=
  let days := Int.fdiv us (86400 * 1000000)
  if -999999999 ≤ days ∧ days ≤ 999999999 then .ok ⟨us⟩
  else .error (.otherError "OverflowError" "days value out of range")

/-- A Python number as stored in the scale table: an int or a float. -/
inductive PyNum : Type where
  | pint (n : Int)
  | pfloat (f : Fp)
deriving DecidableEq, Repr

/-- The module's Integer coercer with the default base: int(text, base=10)
(config.py line 136). -/
def Integer (text : String) : Except Exc Int :=
  pyInt text

/-- The unit scale table of the Timespan coercer (config.py lines
249-255): the millisecond scale is the float 0.001, the other four are
the ints 1, 60, 60*60 and 24*60*60. -/
def scale_by_unit : List (String × PyNum) :=
  [("millisecond", .pfloat float001),
   ("second", .pint 1),
   ("minute", .pint 60),
   ("hour", .pint (60 * 60)),
   ("day", .pint (24 * 60 * 60))]

/-- The Python product count * scale: exact for an int scale, one
float conversion and one rounded multiplication for the float scale. -/
def pyMulNum (count : Int) : PyNum → Except Exc PyNum
  | .pint s => .ok (.pint (count * s))
  | .pfloat f => (pyIntTimesFloat count f).map .pfloat

/-- datetime.timedelta(seconds=x) for an int or float x: an int number
of seconds is exact, a float goes through the microsecond rounding;
both end at the range check. -/
def timedeltaOfPyNum : PyNum → Except Exc Timedelta
  | .pint sec => timedeltaOfUs (sec * 1000000)
  | .pfloat f => timedeltaOfUs (tdUsOfFloat f)

/-- The Timespan coercer (config.py lines 240-270): split the text on
whitespace, require exactly two tokens, parse the count with int(),
depluralise the unit with rstrip, look the unit up in the scale table
(a missing unit is reported as a ValueError), and build a timedelta of
count times scale seconds — through double arithmetic when the scale
is the millisecond float. -/
def Timespan (text : String) : Except Exc Timedelta :=
  match pySplitWs text with
  | [count_text, unit_tok] =>
      match pyInt count_text with
      | .error e => .error e
      | .ok count =>
          match scale_by_unit.lookup (pyRstrip 's' unit_tok) with
          | none => .error (.valueError "unknown unit")
          | some scale =>
              match pyMulNum count scale with
              | .error e => .error e
              | .ok x => timedeltaOfPyNum x
  | _ => .error (.valueError "invalid specification")

/-- Model of the socket address families used by the Endpoint coercer. -/
inductive AddressFamily : Type where
  | af_inet
  | af_unix
deriving DecidableEq, Repr

/-- A host and port pair (config.py lines 148-150). -/
structure InternetAddress : Type where
  host : String
  port : Int
deriving DecidableEq, Repr

/-- The address field of an EndpointConfiguration: either an
InternetAddress or a path string (config.py line 172). -/
inductive EndpointAddress : Type where
  | inet (a : InternetAddress)
  | path (p : String)
deriving DecidableEq, Repr

/-- A description of a remote endpoint: an address family and an
address appropriate for it (config.py lines 156-172). -/
structure EndpointConfiguration : Type where
  family : AddressFamily
  address : EndpointAddress
deriving DecidableEq, Repr

/-- The Endpoint coercer (config.py lines 178-202): empty input is a
ValueError; any input containing a slash is a UNIX domain socket path;
otherwise the input is partitioned at the first colon, a missing colon
is a ValueError, and the part after the colon is parsed with int() as
the port. -/
def Endpoint (text : String) : Except Exc EndpointConfiguration :=
  if text = "" then .error (.valueError "no endpoint specified")
  else if '/' ∈ text.data then .ok ⟨.af_unix, .path text⟩
  else
    match pyPartitionChar ':' text with
    | (host, sep, port) =>
        if sep ≠ ":" then .error (.valueError "no port specified")
        else
          match pyInt port with
          | .error e => .error e
          | .ok n => .ok ⟨.af_inet, .inet ⟨host, n⟩⟩

/-- The Optional combinator (config.py lines 365-375): a truthy
(non-empty) raw string is delegated to the wrapped parser, an empty
one returns the default. -/
def Optional {α : Type} (itemParser : String → Except Exc α) (default : α)
    (text : String) : Except Exc α :=
  if text ≠ "" then itemParser text else .ok default

/-- The Fallback combinator (config.py lines 378-393): run the primary
parser and, when it raises a ValueError (the only exception class the
source catches), run the fallback parser on the same text; any other
exception of the primary, and any exception of the fallback,
propagates. -/
def Fallback {α : Type} (primaryParser fallbackParser : String → Except Exc α)
    (text : String) : Except Exc α :=
  match primaryParser text with
  | .ok v => .ok v
  | .error e => if e.isValueError then fallbackParser text else .error e

/-- A parsed configuration value.  The source is dynamically typed; the
embedding gathers the result types its claims touch (strings, integers,
the None default, and nested namespaces) in one sum.  A namespace is
the ordered name-to-value container built by the structural and
dynamic resolvers. -/
inductive ConfigValue : Type where
  | vStr (s : String)
  | vInt (n : Int)
  | vNone
  | vNs (fields : List (String × ConfigValue))

/-- The raw configuration: a flat insertion-ordered mapping from dotted
key strings to value strings (a Python dict of str to str). -/
abbrev RawConfig : Type :=
  List (String × String)

/-- The capability a resolved Parser object exposes: given a key path
and the full raw configuration, produce a value or fail
(Parser.parse, config.py lines 424-431). -/
abbrev ParseFn : Type :=
  String → RawConfig → Except Exc ConfigValue

mutual
/-- A spec node (ConfigSpecItem, config.py line 405): a Parser object
(represented by its parse capability), a named mapping, a callable
coercer, or anything else (held as its repr string, recognisable as
none of the first three shapes). -/
inductive SpecItem : Type where
  | parserItem (p : ParseFn)
  | mapping (fields : SpecFields)
  | callable (f : String → Except Exc ConfigValue)
  | invalid (r : String)

/-- The ordered field list of a mapping spec node: field name paired
with the field's own spec node. -/
inductive SpecFields : Type where
  | nil
  | cons (name : String) (item : SpecItem) (rest : SpecFields)
end

/-- The declared field names of a mapping spec, in declaration order. -/
def SpecFields.names : SpecFields → List String
  | .nil => []
  | .cons name _ rest => name :: rest.names

/-- The child key path of a field: parent dot name, or the bare name at
the root (config.py lines 445-448). -/
def subKeyPath (key_path key : String) : String :=
  if key_path ≠ "" then key_path ++ "." ++ key else key

/-- The leaf resolver CallableParser.parse (config.py lines 461-467):
look up the raw string at the exact key path, substituting the empty
string when the key is absent, invoke the coercer, and rewrap any
exception it raises into a ConfigurationError carrying the key path
and the cause. -/
def CallableParser.parse (f : String → Except Exc ConfigValue) (key_path : String)
    (raw_config : RawConfig) : Except Exc ConfigValue :=
  let raw_value := (raw_config.lookup key_path).getD ""
  match f raw_value with
  | .ok v => .ok v
  | .error exc => .error (.configurationError key_path exc)

mutual
/-- Parser.from_spec (config.py lines 413-422): a Parser object is used
unchanged, a mapping becomes a SpecParser, a callable becomes a
CallableParser, and anything else raises an AssertionError naming the
spec node. -/
def Parser.from_spec : SpecItem → Except Exc ParseFn
  | .parserItem p => .ok p
  | .mapping fields => .ok (fun key_path raw => (SpecParser.parseFields fields key_path raw).map .vNs)
  | .callable f => .ok (fun key_path raw => CallableParser.parse f key_path raw)
  | .invalid r => .error (.assertionError ("invalid specification: " ++ r))

/-- The field loop of SpecParser.parse (config.py lines 440-452): for
each declared field in order, assert the name holds no dot, build the
child key path, resolve the field's spec node, run the resolved
parser, and store the result; the first exception aborts the loop. -/
def SpecParser.parseFields : SpecFields → String → RawConfig → Except Exc (List (String × ConfigValue))
  | .nil, _, _ => .ok []
  | .cons key item rest, key_path, raw =>
      if '.' ∈ key.data then .error (.assertionError "dots are not allowed in keys")
      else
        match Parser.from_spec item with
        | .error e => .error e
        | .ok parser =>
            match parser (subKeyPath key_path key) raw with
            | .error e => .error e
            | .ok v =>
                match SpecParser.parseFields rest key_path raw with
                | .error e => .error e
                | .ok parsed => .ok ((key, v) :: parsed)
end

/-- SpecParser.parse (config.py lines 440-452): run the field loop and
package the parsed fields as a namespace. -/
def SpecParser.parse (fields : SpecFields) : ParseFn :=
  fun key_path raw => (SpecParser.parseFields fields key_path raw).map .vNs

/-- The entry point parse_config (config.py lines 570-580): resolve the
top-level spec node, then parse from the empty key path.  Only this
top-level resolution happens before raw data is consulted; nested
nodes are resolved inside the field loop. -/
def parse_config (config : RawConfig) (spec : SpecItem) : Except Exc ConfigValue :=
  match Parser.from_spec spec with
  | .error e => .error e
  | .ok parser => parser "" config

/-- The Integer coercer packaged as a spec callable producing a
ConfigValue. -/
def IntegerC (text : String) : Except Exc ConfigValue :=
  (pyInt text).map .vInt

/-- One element of the compiled prefix pattern DictOf.parse builds: a
single character, matched once or under one of the regular-expression
quantifiers. -/
inductive RElem : Type where
  | once (c : Char)
  | star (c : Char)
  | plus (c : Char)
  | opt (c : Char)
deriving DecidableEq, Repr

/-- The characters Python's re module treats specially.  DictOf.parse
escapes only the dots of the prefix (root.replace, config.py line 551),
so any of these appearing in a key path reaches re.compile unescaped. -/
def reSpecial (c : Char) : Bool :=
  c = '(' || c = ')' || c = '[' || c = ']' || c = '\\' ||
    c = '|' || c = '^' || c = '$' || c = '{' || c = '}'

/-- The quantifier characters, which the generated patterns can
contain unescaped. -/
def reQuant (c : Char) : Bool :=
  c = '+' || c = '*' || c = '?'

/-- Attach a quantifier character to the atom it follows. -/
def quantify (q : Char) (c : Char) : RElem :=
  if q = '+' then .plus c else if q = '*' then .star c else .opt c

/-- Compile the prefix part of the pattern re.compile receives in
DictOf.parse.  Every dot of the root arrives escaped (so a dot is a
literal atom); a quantifier applies to the preceding atom, and with no
preceding atom the compile fails as re.compile does.  The remaining
special characters are refused by the model (CPython gives each its
own meaning or error; no key path in this development contains one),
and a doubled quantifier is likewise refused (an error in the CPython
versions contemporary with this source). -/
def compileRootAux : Option Char → List Char → Except Exc (List RElem)
  | pending, [] =>
      .ok (match pending with | none => [] | some a => [.once a])
  | pending, c :: cs =>
      if reQuant c then
        match pending with
        | none => .error (.otherError "re.error" "nothing to repeat")
        | some a => (compileRootAux none cs).map (quantify c a :: ·)
      else if reSpecial c then
        .error (.otherError "re.error" "special character outside the model")
      else
        match pending with
        | none => compileRootAux (some c) cs
        | some a => (compileRootAux (some c) cs).map (.once a :: ·)

/-- Compile the escaped root into pattern elements. -/
def compileRoot (root : String) : Except Exc (List RElem) :=
  compileRootAux none root.data

/-- The run of non-dot characters a successful prefix match hands to
the capture group: the group pattern is one-or-more non-dots, greedy,
with nothing after it, so a match takes the whole run and an empty run
fails. -/
def groupAt (rest : List Char) : Option String :=
  match rest.takeWhile (· ≠ '.') with
  | [] => none
  | run => some (String.mk run)

/-- How many leading copies of a character the input starts with. -/
def countLead (c : Char) : List Char → Nat
  | [] => 0
  | x :: xs => if x = c then countLead c xs + 1 else 0

/-- Backtracking matcher for the anchored pattern: consume the
compiled prefix elements from the start of the key (quantifiers
greedy, backtracking by trying shorter repetition counts in order),
then capture the subkey with groupAt.  Returns the captured subkey of
the leftmost-greedy match, or none. -/
def tryMatch : List RElem → List Char → Option String
  | [], rest => groupAt rest
  | .once _ :: _, [] => none
  | .once c :: es, x :: xs => if x = c then tryMatch es xs else none
  | .star c :: es, xs =>
      ((List.range (countLead c xs + 1)).reverse).findSome?
        (fun k => tryMatch es (xs.drop k))
  | .plus c :: es, xs =>
      (((List.range (countLead c xs + 1)).reverse).dropLast).findSome?
        (fun k => tryMatch es (xs.drop k))
  | .opt c :: es, xs =>
      ((List.range (min (countLead c xs) 1 + 1)).reverse).findSome?
        (fun k => tryMatch es (xs.drop k))

/-- The key loop of DictOf.parse (config.py lines 553-567): for each
raw key in insertion order, run the compiled matcher; on a match whose
subkey was not yet seen, parse the subkey's full path with the
subordinate parser and record the result; keys that do not match, and
keys repeating a seen subkey, are skipped.  The subordinate parser is
the parse capability DictOf resolved at construction. -/
def DictOf.scan (subparse : ParseFn) (root : String) (pat : List RElem)
    (seen : List String) : List String → RawConfig → Except Exc (List (String × ConfigValue))
  | [], _ => .ok []
  | key :: rest, raw =>
      match tryMatch pat key.data with
      | none => DictOf.scan subparse root pat seen rest raw
      | some subkey =>
          if subkey ∈ seen then DictOf.scan subparse root pat seen rest raw
          else
            match subparse (root ++ subkey) raw with
            | .error e => .error e
            | .ok v =>
                match DictOf.scan subparse root pat (subkey :: seen) rest raw with
                | .error e => .error e
                | .ok values => .ok ((subkey, v) :: values)

/-- DictOf.parse (config.py lines 544-567): build the expected prefix
from the key path, compile the matcher from the prefix with only its
dots escaped, and scan the raw keys; the discovered subkeys form the
resulting namespace. -/
def DictOf.parse (subparse : ParseFn) : ParseFn :=
  fun key_path raw_config =>
    let root := if key_path ≠ "" then key_path ++ "." else ""
    match compileRoot root with
    | .error e => .error e
    | .ok pat =>
        (DictOf.scan subparse root pat [] (raw_config.map Prod.fst) raw_config).map .vNs

/-- DictOf construction (config.py lines 541-542): the subordinate
spec node is resolved once, when the DictOf object is built. -/
def DictOf.init (spec : SpecItem) : Except Exc ParseFn :=
  (Parser.from_spec spec).map DictOf.parse

/-- The non-dunder attributes of Python's dict type.  A lookup on a
ConfigNamespace reaches its own entries first (the instance dict is
the mapping itself), then these class attributes, and only then the
catch-all getattr hook.  Dunder attributes of dict and object behave
like these and are not enumerated. -/
def dictAttrNames : List String :=
  ["clear", "copy", "fromkeys", "get", "items", "keys", "pop",
   "popitem", "setdefault", "update", "values"]

/-- The outcome of attribute access on a ConfigNamespace: a stored (or
defaulted) value, or a bound method of the underlying dict type. -/
inductive AttrResult : Type where
  | value (v : ConfigValue)
  | boundMethod (name : String)

/-- Model of attribute access on ConfigNamespace (config.py lines
396-402).  The class assigns the instance attribute dict to the
mapping itself, so every stored field is an instance attribute and
shadows the dict methods; for a name that is neither stored nor a
dict attribute, Python falls back to the getattr hook, whose body is a
bare Ellipsis expression and therefore returns None. -/
def ConfigNamespace.getattr (ns : List (String × ConfigValue)) (name : String) : AttrResult :=
  match ns.lookup name with
  | some v => .value v
  | none => if name ∈ dictAttrNames then .boundMethod name else .value .vNone


/-- Split a character list at every occurrence of a separator
character, keeping empty chunks. -/
def splitChar (sep : Char) : List Char → List (List Char)
  | [] => [[]]
  | c :: cs =>
      if c = sep then [] :: splitChar sep cs
      else
        match splitChar sep cs with
        | [] => [[c]]
        | chunk :: chunks => (c :: chunk) :: chunks

/-- True when an Except value carries a success. -/
def excOk {α : Type} : Except Exc α → Bool
  | .ok _ => true
  | .error _ => false

/-- Modelled from the spec: the surface grammar the spec ascribes to
duration strings — an integer count, a space, and a unit from the
scale table optionally followed by one final letter s.  Written from
the spec's words for comparison against the Timespan coercer. -/
def specDurationForm (text : String) : Bool :=
  match splitChar ' ' text.data with
  | [count, unit_tok] =>
      excOk (pyInt (String.mk count)) &&
        ((scale_by_unit.lookup (String.mk unit_tok)).isSome ||
          ((unit_tok.getLast? == some 's') &&
            (scale_by_unit.lookup (String.mk unit_tok.dropLast)).isSome))
  | _ => false

example : pyInt "12" = .ok 12 := by decide
example : pyInt " -3 " = .ok (-3) := by decide
example : pyInt "1_0" = .ok 10 := by decide
example : pyInt "1__0" = .error (pyIntErr "1__0") := by decide
example : pyInt "abc" = .error (pyIntErr "abc") := by decide
example : pyInt "" = .error (pyIntErr "") := by decide
example : pySplitWs "  1 second  " = ["1", "second"] := by decide
example : pySplitWs "" = [] := by decide
example : pyRstrip 's' "secondss" = "second" := by decide
example : pyPartitionChar ':' "host:80" = ("host", ":", "80") := by decide
example : pyPartitionChar ':' "host" = ("host", "", "") := by decide
example : (2 ^ 62 - 1000 * float001.m).natAbs * 2 ≤ 1000 := by decide
example : bitLen float001.m.natAbs = 53 := by decide
example : Timespan "-5 milliseconds" = .ok ⟨-5000⟩ := by decide
example : Timespan "1 second" = .ok ⟨1000000⟩ := by decide
example : Timespan "3 days" = .ok ⟨3 * 86400000000⟩ := by decide
example : Timespan "2 milliseconds" = .ok ⟨2000⟩ := by decide
example : Timespan "0 seconds" = .ok ⟨0⟩ := by decide
example : Timespan "0 secondss" = .ok ⟨0⟩ := by decide
example : Timespan "1 parsec" = .error (.valueError "unknown unit") := by decide
example : Timespan "second" = .error (.valueError "invalid specification") := by decide
example : Timespan "x seconds" = .error (pyIntErr "x") := by decide
example : Endpoint "host:80" = .ok ⟨.af_inet, .inet ⟨"host", 80⟩⟩ := by decide
example : Endpoint "a/b.sock" = .ok ⟨.af_unix, .path "a/b.sock"⟩ := by decide
example : Endpoint "host" = .error (.valueError "no port specified") := by decide
example : Endpoint "" = .error (.valueError "no endpoint specified") := by decide
example : Endpoint "h:x" = .error (pyIntErr "x") := by decide
example : Optional Integer 9001 "" = .ok 9001 := by decide
example : Optional Integer 9001 "3" = .ok 3 := by decide
example : Fallback Integer (fun _ => .ok 7) "z" = .ok 7 := by decide
example : Fallback Integer (fun _ => .ok 7) "5" = .ok 5 := by decide
example : specDurationForm "0 seconds" = true := by decide
example : specDurationForm "0 second" = true := by decide
example : specDurationForm "0 secondss" = false := by decide
example : specDurationForm "3 day" = true := by decide
example : specDurationForm "x seconds" = false := by decide

/-- Claim C7: the Optional combinator returns the default on empty raw
text without consulting the wrapped parser, and delegates every
non-empty raw text to it, so it never fails on its own while the
wrapped parser's failures still propagate. -/
theorem optional_default_law {α : Type} (P : String → Except Exc α) (D : α) :
    Optional P D "" = .ok D ∧ ∀ text : String, text ≠ "" → Optional P D text = P text := by
  constructor
  · simp [Optional]
  · intro text h
    simp [Optional, h]

/-- Witness for optional_default_law at the Integer coercer with
default 9001. -/
theorem optional_default_law_witness :
    Optional Integer (9001 : Int) "" = .ok 9001 ∧ Optional Integer (9001 : Int) "3" = .ok 3 :=
  ⟨(optional_default_law Integer 9001).1,
   ((optional_default_law Integer 9001).2 "3" (by decide)).trans (by decide)⟩

/-- Claim C2, counterexample: the Fallback combinator catches only
ValueError, so a primary failing with a KeyError propagates that
failure and the fallback parser is never retried — the result is not
the fallback's. -/
theorem fallback_non_value_error_cex :
    Fallback (fun _ => (Except.error (Exc.keyError "boom") : Except Exc Int))
        (fun _ => Except.ok 7) "x"
      = Except.error (Exc.keyError "boom")
    ∧ (fun _ => (Except.ok (7 : Int) : Except Exc Int)) "x" = Except.ok 7 := by
  exact ⟨rfl, rfl⟩

/-- Claim C2, amended: for every primary P, fallback F and input x,
the combined parser equals P x when P x succeeds; when P x fails with
a ValueError, F is retried on the same text and the result is F x
(including F's own failure when both fail); a non-ValueError failure
of P propagates unchanged and F is not tried. -/
theorem fallback_law_value_error {α : Type} (P F : String → Except Exc α) (x : String) :
    (∀ v, P x = .ok v → Fallback P F x = .ok v)
    ∧ (∀ m, P x = .error (.valueError m) → Fallback P F x = F x)
    ∧ (∀ e, P x = .error e → e.isValueError = false → Fallback P F x = .error e) := by
  refine ⟨?_, ?_, ?_⟩
  · intro v h
    simp [Fallback, h]
  · intro m h
    simp [Fallback, h, Exc.isValueError]
  · intro e h hv
    simp [Fallback, h, hv]

/-- Witness for fallback_law_value_error: all three branches at
concrete parsers and inputs. -/
theorem fallback_law_value_error_witness :
    Fallback Integer (fun _ => Except.ok (7 : Int)) "5" = .ok 5
    ∧ Fallback Integer (fun _ => Except.ok (7 : Int)) "z" = .ok 7
    ∧ Fallback (fun _ => (Except.error (Exc.keyError "k") : Except Exc Int))
        (fun _ => Except.ok 7) "z" = .error (.keyError "k") :=
  ⟨(fallback_law_value_error Integer (fun _ => Except.ok 7) "5").1 5 (by decide),
   ((fallback_law_value_error Integer (fun _ => Except.ok 7) "z").2.1
      ("invalid literal for int() with base 10: " ++ pyRepr "z") (by decide)).trans rfl,
   (fallback_law_value_error (fun _ => Except.error (Exc.keyError "k"))
      (fun _ => Except.ok 7) "z").2.2 (Exc.keyError "k") rfl (by decide)⟩

/-- Claim C4: the leaf resolver hands the coercer the exact raw string
stored at the key path, or the empty string when the key is absent;
every failure the coercer raises is rewrapped into a
ConfigurationError carrying the full key path and the cause, and that
error formats as the key path, a colon and a space, and the cause. -/
theorem callable_parser_contract :
    (∀ (f : String → Except Exc ConfigValue) (kp : String) (raw : RawConfig) (v : String),
        raw.lookup kp = some v →
        CallableParser.parse f kp raw = (f v).mapError (Exc.configurationError kp))
    ∧ (∀ (f : String → Except Exc ConfigValue) (kp : String) (raw : RawConfig),
        raw.lookup kp = none →
        CallableParser.parse f kp raw = (f "").mapError (Exc.configurationError kp))
    ∧ (∀ (kp : String) (e : Exc), (Exc.configurationError kp e).str = kp ++ ": " ++ e.str) := by
  refine ⟨?_, ?_, ?_⟩
  · intro f kp raw v h
    cases hf : f v <;> simp [CallableParser.parse, h, hf, Except.mapError]
  · intro f kp raw h
    cases hf : f "" <;> simp [CallableParser.parse, h, hf, Except.mapError]
  · intro kp e
    rfl

/-- Witness for callable_parser_contract: a present key handed to the
Integer coercer, an absent key, and the formatted text of a rewrapped
failure. -/
theorem callable_parser_contract_witness :
    CallableParser.parse IntegerC "k" [("k", "3")] = .ok (.vInt 3)
    ∧ CallableParser.parse IntegerC "k" [("other", "3")]
        = .error (.configurationError "k" (pyIntErr ""))
    ∧ (Exc.configurationError "k" (pyIntErr "")).str
        = "k" ++ ": " ++ (pyIntErr "").str :=
  ⟨(callable_parser_contract.1 IntegerC "k" [("k", "3")] "3" (by decide)).trans rfl,
   (callable_parser_contract.2.1 IntegerC "k" [("other", "3")] (by decide)).trans rfl,
   callable_parser_contract.2.2 "k" (pyIntErr "")⟩

/-- Claim C10, counterexample: attribute access for the undeclared
name items does not return None — the name is an attribute of the
underlying dict type and the bound method is found before the
catch-all hook runs. -/
theorem getattr_dict_attr_cex :
    ConfigNamespace.getattr [] "items" = .boundMethod "items"
    ∧ AttrResult.boundMethod "items" ≠ AttrResult.value ConfigValue.vNone :=
  ⟨rfl, fun h => AttrResult.noConfusion h⟩

/-- Claim C10, amended: attribute access returns the stored value for
a declared or discovered name; for any other name it returns None —
silently, without raising — unless the name is an attribute of the
underlying dict type (such as items or keys), in which case that
attribute is returned instead. -/
theorem getattr_missing_none (ns : List (String × ConfigValue)) (name : String) :
    (∀ v, ns.lookup name = some v → ConfigNamespace.getattr ns name = .value v)
    ∧ (ns.lookup name = none → name ∉ dictAttrNames →
        ConfigNamespace.getattr ns name = .value .vNone)
    ∧ (ns.lookup name = none → name ∈ dictAttrNames →
        ConfigNamespace.getattr ns name = .boundMethod name) := by
  refine ⟨?_, ?_, ?_⟩
  · intro v h
    simp [ConfigNamespace.getattr, h]
  · intro h hn
    simp [ConfigNamespace.getattr, h, hn]
  · intro h hn
    simp [ConfigNamespace.getattr, h, hn]

/-- Witness for getattr_missing_none: a misspelled field name on a
namespace holding one field yields None. -/
theorem getattr_missing_none_witness :
    ConfigNamespace.getattr [("count", ConfigValue.vInt 3)] "mispelled"
      = .value .vNone :=
  (getattr_missing_none [("count", ConfigValue.vInt 3)] "mispelled").2.1 rfl (by decide)

/-- A partition never finds an absent separator: the result is the
whole string and two empty parts. -/
lemma pyPartitionChar_not_found (sep : Char) (s : String) (h : sep ∉ s.data) :
    pyPartitionChar sep s = (s, "", "") := by
  unfold pyPartitionChar
  have hd : s.data.dropWhile (· ≠ sep) = [] := by
    rw [List.dropWhile_eq_nil_iff]
    intro x hx
    simp only [ne_eq, decide_eq_true_eq]
    intro hxe
    exact h (hxe ▸ hx)
  rw [hd]

/-- Claim C9: the endpoint coercer yields an internet address for a
host-colon-port input, a domain socket path for any input containing a
slash, and fails on empty input, on a missing port when no slash is
present, and on a non-integer port. -/
theorem endpoint_contract :
    (Endpoint "" = .error (.valueError "no endpoint specified"))
    ∧ (∀ text : String, '/' ∈ text.data → Endpoint text = .ok ⟨.af_unix, .path text⟩)
    ∧ (∀ text : String, text ≠ "" → '/' ∉ text.data → ':' ∉ text.data →
        Endpoint text = .error (.valueError "no port specified"))
    ∧ (∀ (text host port : String) (n : Int), '/' ∉ text.data →
        pyPartitionChar ':' text = (host, ":", port) → pyInt port = .ok n →
        Endpoint text = .ok ⟨.af_inet, .inet ⟨host, n⟩⟩)
    ∧ (∀ (text host port : String) (e : Exc), '/' ∉ text.data →
        pyPartitionChar ':' text = (host, ":", port) → pyInt port = .error e →
        Endpoint text = .error e)
    ∧ (Endpoint "host:80" = .ok ⟨.af_inet, .inet ⟨"host", 80⟩⟩)
    ∧ (Endpoint "a/b.sock" = .ok ⟨.af_unix, .path "a/b.sock"⟩)
    ∧ (Endpoint "host" = .error (.valueError "no port specified")) := by
  have hempty : ∀ (host port : String),
      pyPartitionChar ':' "" = (host, ":", port) → False := by
    intro host port h
    simp [pyPartitionChar] at h
  refine ⟨by decide, ?_, ?_, ?_, ?_, by decide, by decide, by decide⟩
  · intro text h
    have hne : text ≠ "" := by
      intro he
      subst he
      simp at h
    simp [Endpoint, hne, h]
  · intro text hne hslash hcolon
    simp [Endpoint, hne, hslash, pyPartitionChar_not_found ':' text hcolon]
  · intro text host port n hslash hpart hint
    have hne : text ≠ "" := by
      intro he
      subst he
      exact hempty _ _ hpart
    simp [Endpoint, hne, hslash, hpart, hint]
  · intro text host port e hslash hpart hint
    have hne : text ≠ "" := by
      intro he
      subst he
      exact hempty _ _ hpart
    simp [Endpoint, hne, hslash, hpart, hint]

/-- Witness for endpoint_contract: a slash input, a missing colon, a
good port and a bad port, each at concrete inputs. -/
theorem endpoint_contract_witness :
    Endpoint "x/y" = .ok ⟨.af_unix, .path "x/y"⟩
    ∧ Endpoint "justhost" = .error (.valueError "no port specified")
    ∧ Endpoint "h:9" = .ok ⟨.af_inet, .inet ⟨"h", 9⟩⟩
    ∧ Endpoint "h:no" = .error (pyIntErr "no") :=
  ⟨endpoint_contract.2.1 "x/y" (by decide),
   endpoint_contract.2.2.1 "justhost" (by decide) (by decide) (by decide),
   endpoint_contract.2.2.2.1 "h:9" "h" "9" 9 (by decide) (by decide) (by decide),
   endpoint_contract.2.2.2.2.1 "h:no" "h" "no" (pyIntErr "no") (by decide) (by decide) (by decide)⟩

/-- Claim C1, counterexample: a spec holding a well-formed first field
and a malformed second node, parsed over raw data that makes the first
field fail, reports the first field's value error — raw data was
examined and value parsing attempted before the malformed node was
ever resolved, so the construction error is not raised eagerly at
spec-construction time. -/
theorem spec_resolution_lazy_cex :
    parse_config [("a", "bad")]
        (.mapping (.cons "a" (.callable IntegerC) (.cons "b" (.invalid "None") .nil)))
      = .error (.configurationError "a" (pyIntErr "bad"))
    ∧ Parser.from_spec (.invalid "None")
        = .error (.assertionError "invalid specification: None")
    ∧ Exc.configurationError "a" (pyIntErr "bad")
        ≠ Exc.assertionError "invalid specification: None" :=
  ⟨rfl, rfl, by decide⟩

/-- Claim C1, amended: a malformed spec node or a dotted field name
does raise the construction (assertion) error, but resolution is not
performed once eagerly at spec construction: only the top-level node
(and a DictOf subordinate) is resolved before parsing, while mapping
fields are resolved one at a time inside the parse loop, so a
malformed node is only detected when its field is reached and earlier
fields' raw data examination, value parsing and failures come first. -/
theorem spec_resolution_per_field :
    (∀ r, Parser.from_spec (.invalid r)
        = .error (.assertionError ("invalid specification: " ++ r)))
    ∧ (∀ (raw : RawConfig) (r : String), parse_config raw (.invalid r)
        = .error (.assertionError ("invalid specification: " ++ r)))
    ∧ (∀ r, DictOf.init (.invalid r)
        = .error (.assertionError ("invalid specification: " ++ r)))
    ∧ (∀ (key : String) (item : SpecItem) (rest : SpecFields) (kp : String) (raw : RawConfig),
        '.' ∈ key.data →
        SpecParser.parseFields (.cons key item rest) kp raw
          = .error (.assertionError "dots are not allowed in keys"))
    ∧ (∀ (key : String) (f : String → Except Exc ConfigValue) (rest : SpecFields)
          (kp : String) (raw : RawConfig) (e : Exc),
        '.' ∉ key.data →
        CallableParser.parse f (subKeyPath kp key) raw = .error e →
        SpecParser.parseFields (.cons key (.callable f) rest) kp raw = .error e) := by
  refine ⟨fun r => rfl, fun raw r => rfl, fun r => rfl, ?_, ?_⟩
  · intro key item rest kp raw h
    simp [SpecParser.parseFields, h]
  · intro key f rest kp raw e hdot herr
    simp [SpecParser.parseFields, hdot, Parser.from_spec, herr]

/-- Witness for spec_resolution_per_field: a failing first field stops
the loop before a malformed second node is resolved. -/
theorem spec_resolution_per_field_witness :
    SpecParser.parseFields
        (.cons "a" (.callable IntegerC) (.cons "b" (.invalid "None") .nil)) "" [("a", "bad")]
      = .error (.configurationError "a" (pyIntErr "bad")) :=
  spec_resolution_per_field.2.2.2.2 "a" IntegerC (.cons "b" (.invalid "None") .nil)
    "" [("a", "bad")] (.configurationError "a" (pyIntErr "bad")) (by decide) rfl

/-- A successful field loop returns one entry per declared field, in
declaration order. -/
lemma parseFields_names : (fields : SpecFields) → (kp : String) → (raw : RawConfig) →
    (parsed : List (String × ConfigValue)) →
    SpecParser.parseFields fields kp raw = .ok parsed →
    parsed.map Prod.fst = fields.names
  | .nil, kp, raw, parsed, h => by
      simp only [SpecParser.parseFields] at h
      cases h
      rfl
  | .cons key item rest, kp, raw, parsed, h => by
      simp only [SpecParser.parseFields] at h
      split at h
      · cases h
      · split at h
        · cases h
        · split at h
          · cases h
          · split at h
            · cases h
            · cases h
              simp only [SpecFields.names, List.map_cons]
              exact congrArg (key :: ·) (parseFields_names rest kp raw _ (by assumption))

/-- Claim C5: the structural resolver works through the declared
fields in order under the child key path built from the parent path
and the field name; the first field whose resolution fails aborts the
whole parse with that failure unmodified, no later sibling is
attempted, and a successful parse holds every declared field. -/
theorem spec_parser_contract :
    (∀ (fields : SpecFields) (kp : String) (raw : RawConfig)
        (parsed : List (String × ConfigValue)),
        SpecParser.parseFields fields kp raw = .ok parsed →
        parsed.map Prod.fst = fields.names)
    ∧ (∀ (key : String) (item : SpecItem) (p : ParseFn) (rest : SpecFields)
          (kp : String) (raw : RawConfig) (e : Exc),
        '.' ∉ key.data →
        Parser.from_spec item = .ok p →
        p (subKeyPath kp key) raw = .error e →
        SpecParser.parseFields (.cons key item rest) kp raw = .error e)
    ∧ (∀ kp key : String, kp ≠ "" → subKeyPath kp key = kp ++ "." ++ key)
    ∧ (∀ key : String, subKeyPath "" key = key)
    ∧ (parse_config [("nested.count", "abc")]
        (.mapping (.cons "nested" (.mapping (.cons "count" (.callable IntegerC) .nil)) .nil))
        = .error (.configurationError "nested.count" (pyIntErr "abc"))) := by
  refine ⟨parseFields_names, ?_, ?_, fun key => by simp [subKeyPath], rfl⟩
  · intro key item p rest kp raw e hdot hspec herr
    simp [SpecParser.parseFields, hdot, hspec, herr]
  · intro kp key h
    simp [subKeyPath, h]

/-- Witness for spec_parser_contract: a one-field spec parses to a
namespace holding exactly the declared name, and a failing field
aborts with its own error while a sibling remains unattempted. -/
theorem spec_parser_contract_witness :
    ([("x", ConfigValue.vInt 4)].map Prod.fst)
      = (SpecFields.cons "x" (.callable IntegerC) .nil).names
    ∧ SpecParser.parseFields
        (.cons "x" (.callable IntegerC) (.cons "y" (.callable IntegerC) .nil)) "" [("y", "2")]
      = .error (.configurationError "x" (pyIntErr "")) :=
  ⟨spec_parser_contract.1 (.cons "x" (.callable IntegerC) .nil) "" [("x", "4")]
      [("x", ConfigValue.vInt 4)] rfl,
   spec_parser_contract.2.1 "x" (.callable IntegerC)
      (fun kp raw => CallableParser.parse IntegerC kp raw)
      (.cons "y" (.callable IntegerC) .nil) "" [("y", "2")]
      (.configurationError "x" (pyIntErr "")) (by decide) rfl rfl⟩

/-- Dropping the strip character over a run of its own copies reaches
whatever follows the run. -/
lemma dropWhile_replicate_append (k : Nat) (l : List Char) :
    List.dropWhile (· = 's') (List.replicate k 's' ++ l) = List.dropWhile (· = 's') l := by
  induction k with
  | zero => rfl
  | succ n ih => simp [List.replicate_succ, List.dropWhile_cons, ih]

/-- Stripping trailing copies of the letter s removes exactly the
appended run when the base string does not itself end in s. -/
lemma pyRstrip_append_reps (u : String) (k : Nat) (hu : u.data.getLast? ≠ some 's') :
    pyRstrip 's' (u ++ String.mk (List.replicate k 's')) = u := by
  unfold pyRstrip
  rw [String.data_append]
  rw [show (String.mk (List.replicate k 's')).data = List.replicate k 's' from rfl]
  rw [List.reverse_append, List.reverse_replicate, dropWhile_replicate_append]
  have hdrop : u.data.reverse.dropWhile (· = 's') = u.data.reverse := by
    cases hrev : u.data.reverse with
    | nil => rfl
    | cons x xs =>
        have hx : x ≠ 's' := by
          have hlast : u.data.getLast? = u.data.reverse.head? := List.getLast?_eq_head?_reverse
          rw [hrev] at hlast
          intro hxe
          exact hu (by rw [hlast, hxe]; rfl)
        simp [List.dropWhile_cons, hx]
  rw [hdrop, List.reverse_reverse]

/-- A successful lookup in the unit scale table forces one of the
five unit name and scale pairs. -/
lemma scale_lookup_cases {u : String} {p : PyNum} (h : scale_by_unit.lookup u = some p) :
    (u = "millisecond" ∧ p = .pfloat float001) ∨ (u = "second" ∧ p = .pint 1)
    ∨ (u = "minute" ∧ p = .pint 60) ∨ (u = "hour" ∧ p = .pint (60 * 60))
    ∨ (u = "day" ∧ p = .pint (24 * 60 * 60)) := by
  simp only [scale_by_unit, List.lookup] at h
  repeat' split at h
  all_goals simp_all [beq_iff_eq]

/-- Claim C8, amended: the duration coercer accepts exactly the
strings that split on whitespace into an integer count and a known
unit carrying any number of trailing letters s (rstrip removes them
all, so the plural is optional and over-pluralised forms also pass),
and fails on a wrong token count, a non-integer count or an unknown
unit.  For the integer-scaled units the span's seconds equal the
count times the unit's scale whenever the span fits the timedelta
range (zero seconds gives the zero-length span; an out-of-range span
is an OverflowError).  For milliseconds the count is multiplied by
the double 0.001 and the product rounded to whole microseconds, so
the seconds equal the count times the scale only up to double
rounding — exactly for small counts, not for all in-range counts. -/
theorem timespan_grammar :
    (∀ (text count_text uname : String) (k : Nat) (n s : Int),
        pySplitWs text = [count_text, uname ++ String.mk (List.replicate k 's')] →
        pyInt count_text = .ok n →
        scale_by_unit.lookup uname = some (.pint s) →
        Timespan text = timedeltaOfUs (n * s * 1000000))
    ∧ (∀ (n s : Int) (td : Timedelta),
        timedeltaOfUs (n * s * 1000000) = .ok td →
        td.totalSeconds = (n : Rat) * (s : Rat))
    ∧ (∀ (text count_text : String) (k : Nat) (n : Int),
        pySplitWs text = [count_text, "millisecond" ++ String.mk (List.replicate k 's')] →
        pyInt count_text = .ok n →
        (∀ f, pyIntTimesFloat n float001 = .ok f →
            Timespan text = timedeltaOfUs (tdUsOfFloat f))
        ∧ (∀ e, pyIntTimesFloat n float001 = .error e → Timespan text = .error e))
    ∧ (Timespan "0 seconds" = .ok ⟨0⟩ ∧ Timespan "2 milliseconds" = .ok ⟨2000⟩)
    ∧ (∀ text : String, (pySplitWs text).length ≠ 2 →
        Timespan text = .error (.valueError "invalid specification"))
    ∧ (∀ (text c u : String) (e : Exc), pySplitWs text = [c, u] →
        pyInt c = .error e → Timespan text = .error e)
    ∧ (∀ (text c u : String) (n : Int), pySplitWs text = [c, u] →
        pyInt c = .ok n → scale_by_unit.lookup (pyRstrip 's' u) = none →
        Timespan text = .error (.valueError "unknown unit")) := by
  refine ⟨?_, ?_, ?_, ⟨by decide, by decide⟩, ?_, ?_, ?_⟩
  · intro text count_text uname k n s hsplit hint hlookup
    have hlast : uname.data.getLast? ≠ some 's' := by
      rcases scale_lookup_cases hlookup with ⟨h1, _⟩ | ⟨h1, _⟩ | ⟨h1, _⟩ | ⟨h1, _⟩ | ⟨h1, _⟩ <;>
        subst h1 <;> decide
    simp only [Timespan, hsplit, hint]
    rw [pyRstrip_append_reps uname k hlast, hlookup]
    rfl
  · intro n s td htd
    simp only [timedeltaOfUs] at htd
    split at htd
    · cases htd
      unfold Timedelta.totalSeconds
      push_cast
      ring
    · cases htd
  · intro text count_text k n hsplit hint
    have hlast : ("millisecond" : String).data.getLast? ≠ some 's' := by decide
    constructor
    · intro f hf
      simp only [Timespan, hsplit, hint]
      rw [pyRstrip_append_reps "millisecond" k hlast]
      simp only [show scale_by_unit.lookup "millisecond" = some (.pfloat float001) from rfl,
        pyMulNum, hf, Except.map]
      rfl
    · intro e he
      simp only [Timespan, hsplit, hint]
      rw [pyRstrip_append_reps "millisecond" k hlast]
      simp only [show scale_by_unit.lookup "millisecond" = some (.pfloat float001) from rfl,
        pyMulNum, he, Except.map]
  · intro text h
    simp only [Timespan]
    cases hs : pySplitWs text with
    | nil => rfl
    | cons a t =>
        cases t with
        | nil => rfl
        | cons b t2 =>
            cases t2 with
            | nil => exact absurd (by rw [hs]; rfl) h
            | cons c t3 => rfl
  · intro text c u e hsplit hint
    simp [Timespan, hsplit, hint]
  · intro text c u n hsplit hint hlookup
    simp [Timespan, hsplit, hint, hlookup]

/-- Witness for timespan_grammar: two minutes parses to a span of one
hundred twenty seconds — the count times the minute scale — and seven
milliseconds goes through the double path to exactly seven thousand
microseconds. -/
theorem timespan_grammar_witness :
    Timespan "2 minutes" = .ok ⟨120000000⟩
    ∧ Timedelta.totalSeconds ⟨120000000⟩ = (2 : Rat) * (60 : Rat)
    ∧ Timespan "7 milliseconds" = .ok ⟨7000⟩ :=
  ⟨(timespan_grammar.1 "2 minutes" "2" "minute" 1 2 60
      (by decide) (by decide) (by decide)).trans (by decide),
   timespan_grammar.2.1 2 60 ⟨120000000⟩ (by decide),
   (((timespan_grammar.2.2.1 "7 milliseconds" "7" 1 7 (by decide) (by decide)).1
      ⟨8070450532247929, -60⟩ (by decide)).trans (by decide))⟩

set_option maxRecDepth 4000 in
/-- Claim C8, counterexample: three accepted inputs on which the
stated grammar or value contract fails.  Zero secondss — two trailing
letters s — is outside the stated surface form yet accepted, because
rstrip removes every trailing s.  A trillion days is of the stated
form but raises OverflowError instead of returning a span, because
timedelta holds at most 999999999 days.  And 4503599627370497
milliseconds (in range) yields a span of 4503599627370497070
microseconds, not seconds equal to count times scale, because the
count is multiplied by the double 0.001. -/
theorem timespan_value_cex :
    (specDurationForm "0 secondss" = false ∧ Timespan "0 secondss" = .ok ⟨0⟩)
    ∧ (specDurationForm "1000000000000 days" = true
        ∧ Timespan "1000000000000 days"
            = .error (.otherError "OverflowError" "days value out of range"))
    ∧ (specDurationForm "4503599627370497 milliseconds" = true
        ∧ Timespan "4503599627370497 milliseconds" = .ok ⟨4503599627370497070⟩
        ∧ Timedelta.totalSeconds ⟨4503599627370497070⟩
            ≠ (4503599627370497 : Rat) * (1 / 1000)) := by
  refine ⟨⟨by decide, by decide⟩, ⟨by decide, by decide⟩, ⟨by decide, by decide, ?_⟩⟩
  unfold Timedelta.totalSeconds
  intro h
  rw [div_eq_iff (by norm_num)] at h
  norm_num at h

/-- Invariant of the DictOf key loop: a successful scan returns
pairwise-distinct subkeys, and a subkey appears exactly when it is not
in the seen set and some scanned raw key matches it. -/
lemma dictof_scan_invariant (subparse : ParseFn) (root : String) (pat : List RElem) :
    ∀ (keys : List String) (raw : RawConfig) (seen : List String)
      (parsed : List (String × ConfigValue)),
      DictOf.scan subparse root pat seen keys raw = .ok parsed →
      (parsed.map Prod.fst).Nodup
      ∧ (∀ s, s ∈ parsed.map Prod.fst ↔
          (s ∉ seen ∧ ∃ k ∈ keys, tryMatch pat k.data = some s)) := by
  intro keys
  induction keys with
  | nil =>
      intro raw seen parsed h
      simp only [DictOf.scan] at h
      cases h
      simp
  | cons key rest ih =>
      intro raw seen parsed h
      simp only [DictOf.scan] at h
      cases hm : tryMatch pat key.data with
      | none =>
          rw [hm] at h
          obtain ⟨hnodup, hiff⟩ := ih raw seen parsed h
          refine ⟨hnodup, fun s => ?_⟩
          rw [hiff s]
          constructor
          · rintro ⟨hs, k, hk, hks⟩
            exact ⟨hs, k, List.mem_cons_of_mem _ hk, hks⟩
          · rintro ⟨hs, k, hk, hks⟩
            rcases List.mem_cons.mp hk with rfl | hk'
            · rw [hm] at hks
              cases hks
            · exact ⟨hs, k, hk', hks⟩
      | some subkey =>
          simp only [hm] at h
          by_cases hseen : subkey ∈ seen
          · rw [if_pos hseen] at h
            obtain ⟨hnodup, hiff⟩ := ih raw seen parsed h
            refine ⟨hnodup, fun s => ?_⟩
            rw [hiff s]
            constructor
            · rintro ⟨hs, k, hk, hks⟩
              exact ⟨hs, k, List.mem_cons_of_mem _ hk, hks⟩
            · rintro ⟨hs, k, hk, hks⟩
              rcases List.mem_cons.mp hk with rfl | hk'
              · rw [hm] at hks
                cases hks
                exact absurd hseen hs
              · exact ⟨hs, k, hk', hks⟩
          · rw [if_neg hseen] at h
            cases hv : subparse (root ++ subkey) raw with
            | error e =>
                rw [hv] at h
                cases h
            | ok v =>
                rw [hv] at h
                cases hrest : DictOf.scan subparse root pat (subkey :: seen) rest raw with
                | error e =>
                    rw [hrest] at h
                    cases h
                | ok values =>
                    rw [hrest] at h
                    cases h
                    obtain ⟨hnodup, hiff⟩ := ih raw (subkey :: seen) values hrest
                    have hnotin : subkey ∉ values.map Prod.fst := by
                      intro hmem
                      exact ((hiff subkey).mp hmem).1 (List.mem_cons_self _ _)
                    refine ⟨List.nodup_cons.mpr ⟨hnotin, hnodup⟩, fun s => ?_⟩
                    simp only [List.map_cons, List.mem_cons]
                    constructor
                    · rintro (rfl | hmem)
                      · exact ⟨hseen, key, Or.inl rfl, hm⟩
                      · obtain ⟨hs, k, hk, hks⟩ := (hiff s).mp hmem
                        exact ⟨fun hsm => hs (List.mem_cons_of_mem _ hsm), k, Or.inr hk, hks⟩
                    · rintro ⟨hs, k, hk, hks⟩
                      by_cases hsub : s = subkey
                      · exact Or.inl hsub
                      · refine Or.inr ((hiff s).mpr ⟨?_, ?_⟩)
                        · intro hsm
                          rcases List.mem_cons.mp hsm with h1 | h1
                          · exact hsub h1
                          · exact hs h1
                        · rcases hk with rfl | hk'
                          · rw [hm] at hks
                            cases hks
                            exact absurd rfl hsub
                          · exact ⟨k, hk', hks⟩

/-- Claim C6: a successful dynamic parse resolves each distinct subkey
at its level exactly once — the resulting namespace has
pairwise-distinct subkeys and holds a subkey exactly when some raw key
matches it, however many raw keys share that subkey's prefix. -/
theorem dictof_dedup (subparse : ParseFn) (kp : String) (raw : RawConfig)
    (pat : List RElem) (ns : List (String × ConfigValue)) :
    compileRoot (if kp ≠ "" then kp ++ "." else "") = .ok pat →
    DictOf.parse subparse kp raw = .ok (.vNs ns) →
    (ns.map Prod.fst).Nodup
    ∧ (∀ s, s ∈ ns.map Prod.fst ↔
        ∃ k ∈ raw.map Prod.fst, tryMatch pat k.data = some s) := by
  intro hpat h
  simp only [DictOf.parse, hpat] at h
  cases hscan : DictOf.scan subparse (if kp ≠ "" then kp ++ "." else "") pat []
      (raw.map Prod.fst) raw with
  | error e =>
      rw [hscan] at h
      cases h
  | ok parsed =>
      rw [hscan] at h
      simp only [Except.map] at h
      have hpn : parsed = ns := by
        injection h with h1
        injection h1
      subst hpn
      obtain ⟨hnodup, hiff⟩ :=
        dictof_scan_invariant subparse (if kp ≠ "" then kp ++ "." else "") pat
          (raw.map Prod.fst) raw [] parsed hscan
      refine ⟨hnodup, fun s => ?_⟩
      rw [hiff s]
      simp

/-- Witness for dictof_dedup: three raw keys, two sharing the subkey
x under the path a, resolve to a single entry for x. -/
theorem dictof_dedup_witness :
    (([("x", ConfigValue.vStr "a.x")]).map Prod.fst).Nodup
    ∧ "x" ∈ ([("x", ConfigValue.vStr "a.x")]).map Prod.fst := by
  have h := dictof_dedup (fun kp _ => .ok (.vStr kp)) "a"
    [("a.x.p", "1"), ("a.x.q", "2"), ("b.z", "3")] [.once 'a', .once '.']
    [("x", ConfigValue.vStr "a.x")] rfl rfl
  exact ⟨h.1, (h.2 "x").mpr ⟨"a.x.p", by simp, rfl⟩⟩

/-- Claim C3, evaluation at the failing input: the raw key joined from
the key path a-plus and subkey x begins with the expected prefix, yet
the dynamic resolver returns the empty namespace for it, because the
prefix is compiled into a pattern with only its dots escaped and the
plus sign quantifies instead of matching itself; conversely a raw key
that does not begin with the prefix is matched and resolved under a
full path that does not exist among the raw keys. -/
theorem dictof_regex_divergence :
    "a+.".data.isPrefixOf "a+.x".data = true
    ∧ DictOf.parse (CallableParser.parse IntegerC) "a+" [("a+.x", "1")] = .ok (.vNs [])
    ∧ DictOf.parse (fun kp _ => .ok (.vStr kp)) "a+" [("aa.x", "1")]
        = .ok (.vNs [("x", .vStr "a+.x")]) := by
  exact ⟨by decide, rfl, rfl⟩

end Config
